import Mathlib

/-!
Verification of the `minus` terminal-pager crate.

Strings of the Rust source are embedded as `List Char` (sequences of Unicode
scalar values); the byte length of a string is the sum of the UTF-8 sizes of
its characters.  Fallible or panicking Rust code is embedded as
`Option`-returning functions, `none` standing for a panic.
-/

namespace Minus

/-- Byte length of a Rust string, i.e. the sum of the UTF-8 sizes of its
characters (`str::len` counts bytes, not characters). -/
def byteLen (l : List Char) : Nat := (l.map Char.utf8Size).sum

/-- Split a character sequence on `'\n'`, keeping every (possibly empty)
segment; `n` newline characters give `n + 1` segments. -/
def splitOnNl : List Char → List (List Char)
  | [] => [[]]
  | c :: rest =>
    if c = '\n' then [] :: splitOnNl rest
    else
      match splitOnNl rest with
      | [] => [[c]]
      | h :: t => (c :: h) :: t

/-- Remove one trailing carriage return, as Rust's `str::lines` does for a
segment that was terminated by `"\r\n"`. -/
def stripCr (l : List Char) : List Char :=
  if l.getLast? = some '\r' then l.dropLast else l

/-- Embedding of Rust's `str::lines`: split on `'\n'`, strip a `'\r'` left at
the end of every terminated segment, and do not produce a final empty line
when the text ends with a line terminator (or is empty). -/
def rustLines (text : List Char) : List (List Char) :=
  let segs := splitOnNl text
  let init := segs.dropLast.map stripCr
  match segs.getLast? with
  | some [] => init
  | some l => init ++ [l]
  | none => init

/-- Embedding of Rust's `str::split_at` at byte index `n`: succeeds with the
two halves when `n` lands on a character (UTF-8) boundary of the string, and
is `none` (a Rust panic) when `n` falls inside a multi-byte character or past
the end of the string. -/
def splitAtByte : List Char → Nat → Option (List Char × List Char)
  | l, 0 => some ([], l)
  | [], _ + 1 => none
  | c :: cs, n + 1 =>
    if c.utf8Size ≤ n + 1 then
      (splitAtByte cs (n + 1 - c.utf8Size)).map fun q => (c :: q.1, q.2)
    else none

/-- The loop of `split_line_at_width` (src/lib.rs): run `k` iterations, each
cutting `cols` bytes off the front with `str::split_at`, then push whatever
remains.  `none` models a panic inside `split_at`. -/
def splitLineGo (cols : Nat) : Nat → List Char → Option (List (List Char))
  | 0, line => some [line]
  | k + 1, line =>
    (splitAtByte line cols).bind fun ab =>
      (splitLineGo cols k ab.2).map fun ls => ab.1 :: ls

/-- Embedding of `split_line_at_width` (src/lib.rs): `breaks` is
`line.len() / cols + 1` (byte length), the loop `for _ in 1..breaks` runs
`breaks - 1` times, and the remainder is pushed last.  `cols = 0` makes the
Rust `line.len() / cols` panic (integer division by zero), hence `none`. -/
def split_line_at_width (line : List Char) (cols : Nat) : Option (List (List Char)) :=
  if cols = 0 then none
  else splitLineGo cols (byteLen line / cols) line

/-- The loop of `split_at_width` over the logical lines of the text: each
logical line's slices are appended in order; a panic in any line aborts. -/
def splitAll (cols : Nat) : List (List Char) → Option (List (List Char))
  | [] => some []
  | l :: ls =>
    (split_line_at_width l cols).bind fun a =>
      (splitAll cols ls).map fun b => a ++ b

/-- Embedding of `split_at_width` (src/lib.rs): split the text on logical
newlines with `str::lines` and wrap each logical line. -/
def split_at_width (text : List Char) (cols : Nat) : Option (List (List Char)) :=
  splitAll cols (rustLines text)

example : rustLines ['a', 'b', '\n', 'c'] = [['a', 'b'], ['c']] := by decide
example : rustLines [] = [] := by decide
example : rustLines ['a', '\n'] = [['a']] := by decide
example : rustLines ['a', '\r', '\n', '\n'] = [['a'], []] := by decide
example : rustLines ['a', '\r'] = [['a', '\r']] := by decide
example : split_line_at_width ['a', 'a'] 2 = some [['a', 'a'], []] := by decide
example : split_line_at_width ['a', 'b', 'c'] 2 = some [['a', 'b'], ['c']] := by decide
example : split_line_at_width [] 5 = some [[]] := by decide
example : split_line_at_width ['é'] 1 = none := by decide
example : split_at_width ['a', 'a', '\n', 'b'] 2 = some [['a', 'a'], [], ['b']] := by decide

/-- Line-number display mode (`LineNumbers` in src; the enum body lives in the
absent `utils` module, its four variants are used throughout src). -/
inductive LineNumbers where
  | Enabled
  | Disabled
  | AlwaysOn
  | AlwaysOff
deriving DecidableEq

/-- Does this mode show line numbers (`Enabled` or `AlwaysOn`)? -/
def LineNumbers.isOn : LineNumbers → Bool
  | .Enabled | .AlwaysOn => true
  | .Disabled | .AlwaysOff => false

/-- Direction of an incremental search (`SearchMode` in src). -/
inductive SearchMode where
  | Forward
  | Reverse
  | Unknown
deriving DecidableEq

/-- Embedding of `ExitStrategy` (src/lib.rs). -/
inductive ExitStrategy where
  | ProcessQuit
  | PagerQuit
deriving DecidableEq

/-- Decimal digits of `n + 1`-style absolute line numbers: the characters of
`n` written in base 10 (Rust's `ToString` for `usize`). -/
def natChars (n : Nat) : List Char := Nat.toDigits 10 n

/-- Left-pad a character string with spaces to width `w`. -/
def padLeft (w : Nat) (s : List Char) : List Char :=
  List.replicate (w - s.length) ' ' ++ s

/-- One rendered display line: a carriage-return control, then (when numbering
is on) the 1-based absolute line number right-aligned to `pad` characters
followed by `". "`, then the line content, then a newline. -/
def renderLine (withNums : Bool) (pad : Nat) (idx : Nat) (l : List Char) : List Char :=
  if withNums then
    '\r' :: (padLeft pad (natChars (idx + 1)) ++ '.' :: ' ' :: l) ++ ['\n']
  else
    '\r' :: l ++ ['\n']

/-- Modelled from the spec: the render/scroll engine `write_lines`
(`src/utils` is absent from the sources; only its tests are present).
Per §4.2: clamping rule — if `num_lines <= rows` force `upper_mark = 0`,
otherwise clamp `upper_mark` to `[0, num_lines - rows]`; drawing rule — emit
exactly `min(rows, num_lines - upper_mark)` lines starting at `upper_mark`,
each prefixed with a carriage return and suffixed with a newline, numbers
(when on) padded to `digits(num_lines)`.  Returns the clamped in/out
`upper_mark` together with the emitted byte lines. -/
def write_lines (lines : List (List Char)) (rows : Nat) (upper_mark : Nat)
    (ln : LineNumbers) : Nat × List (List Char) :=
  let line_count := lines.length
  let um := if line_count ≤ rows then 0 else min upper_mark (line_count - rows)
  let shown := (lines.drop um).take (min rows (line_count - um))
  let pad := (natChars line_count).length
  (um, shown.enum.map fun e => renderLine ln.isOn pad (um + e.1) e.2)

/-- The four logical lines of the `long_no_line_numbers` test. -/
def testLines4 : List (List Char) :=
  ["A line".toList, "Another line".toList, "Third line".toList, "Fourth line".toList]

example :
    write_lines testLines4 3 2 LineNumbers.Disabled =
      (1, ["\rAnother line\n".toList, "\rThird line\n".toList, "\rFourth line\n".toList]) := by
  decide

example :
    write_lines ["A line".toList, "Another line".toList] 10 1 LineNumbers.Enabled =
      (0, ["\r1. A line\n".toList, "\r2. Another line\n".toList]) := by
  decide

/-- The 110 generated lines `"L0" .. "L109"` of the
`big_line_numbers_are_padded` test. -/
def bigTestLines : List (List Char) :=
  (List.range 110).map fun i => 'L' :: natChars i

example :
    ((write_lines bigTestLines 10 95 LineNumbers.AlwaysOn).1,
      (write_lines bigTestLines 10 95 LineNumbers.AlwaysOn).2.length,
      (write_lines bigTestLines 10 95 LineNumbers.AlwaysOn).2.head?,
      (write_lines bigTestLines 10 95 LineNumbers.AlwaysOn).2.getLast?) =
    (95, 10, some "\r 96. L95\n".toList, some "\r105. L104\n".toList) := by decide

/-- Embedding of the `Pager` configuration struct (src/lib.rs).  The
`search`-feature fields `search_term` and `search_lines` are kept as in the
source (`search_mode` likewise). -/
structure Pager where
  lines : List (List Char)
  line_numbers : LineNumbers
  prompt : String
  running : Bool
  unwraped_text : List Char
  exit_strategy : ExitStrategy
  upper_mark : Nat
  search_term : String
  search_lines : List (List Char)
  search_mode : SearchMode
  rows : Nat
  cols : Nat

/-- Embedding of `Pager::new` (src/lib.rs). -/
def Pager.new : Pager where
  lines := []
  line_numbers := LineNumbers.Disabled
  upper_mark := 0
  prompt := "minus"
  exit_strategy := ExitStrategy.ProcessQuit
  running := false
  unwraped_text := []
  search_term := ""
  search_lines := []
  search_mode := SearchMode.Unknown
  cols := 1
  rows := 1

/-- Embedding of `Pager::set_text` (src/lib.rs): before the pager runs the
text is only stored in `unwraped_text`; once running it replaces `lines`
with the wrapped text (`none` models a panic inside `split_at_width`). -/
def set_text (p : Pager) (text : List Char) : Option Pager :=
  if p.running = false then some { p with unwraped_text := text }
  else (split_at_width text p.cols).map fun ls => { p with lines := ls }

/-- Embedding of `Pager::push_str` (src/lib.rs): before the pager runs the
text is appended to `unwraped_text`; once running the wrapped lines are
appended to `lines`. -/
def push_str (p : Pager) (text : List Char) : Option Pager :=
  if p.running = false then
    some { p with unwraped_text := p.unwraped_text ++ text }
  else (split_at_width text p.cols).map fun ls => { p with lines := p.lines ++ ls }

/-- Embedding of `Pager::prepare` (src/lib.rs).  The terminal size queried
from the external terminal collaborator is passed in as `cols`/`rows`.  When
not yet running it flips `running` to `true` and wraps the accumulated
`unwraped_text`; when already running the source panics (`none`). -/
def prepare (p : Pager) (cols rows : Nat) : Option Pager :=
  let p0 := { p with cols := cols, rows := rows }
  if p0.running = false then
    (split_at_width p0.unwraped_text p0.cols).map fun ls =>
      { p0 with running := true, lines := ls }
  else none

/-- Embedding of the `PagerState` aggregate used by `handle_event`
(src/core/ev_handler.rs); the struct's own definition is not among the
sources, so its fields are the ones the handler and the spec's data model
(§3) use.  The compiled search matcher is embedded as a Boolean predicate on
a line (the pattern-matching collaborator's `Matcher.is_match`). -/
structure PagerState where
  lines : List Char
  formatted_lines : List (List Char)
  upper_mark : Nat
  rows : Nat
  cols : Nat
  line_numbers : LineNumbers
  prompt : String
  message : Option String
  search_term : Option (List Char → Bool)
  search_mode : SearchMode
  search_idx : List Nat
  search_mark : Nat

/-- Modelled from the spec: `PagerState::num_lines`, the number of display
lines (`formatted_lines` is the derived sequence of display lines, §3). -/
def num_lines (p : PagerState) : Nat := p.formatted_lines.length

/-- Display-line indices matching the search pattern: "search_match_index
(ordered sequence of display-line indices that matched, ascending)" (§3),
recorded once per matching line; empty when no pattern is set. -/
def matchIndices (t : Option (List Char → Bool)) (fl : List (List Char)) : List Nat :=
  match t with
  | none => []
  | some r => (fl.enum.filter fun e => r e.2).map fun e => e.1

/-- Modelled from the spec: `PagerState::format_lines` (not among the
sources).  Per §4.1/§4.3 it recomputes `formatted_lines` wholesale from the
raw text at the current width and re-derives `search_match_index` against the
new `formatted_lines`.  `none` models a panic inside the wrapper. -/
def format_lines (p : PagerState) : Option PagerState :=
  (split_at_width p.lines p.cols).map fun f =>
    { p with formatted_lines := f, search_idx := matchIndices p.search_term f }

/-- Modelled from the spec: `search::next_match` (not among the sources).
Per §4.3, scroll-to-match "sets `upper_mark` exactly to the match line" of
the match at the current cursor; with no match at the cursor nothing
happens.  It does not move the match cursor itself. -/
def next_match (p : PagerState) : PagerState :=
  match p.search_idx.get? p.search_mark with
  | some y => { p with upper_mark := y }
  | none => p

/-- Embedding of the `InputEvent::NextMatch` arm of `handle_event`
(src/core/ev_handler.rs): guarded by `search_term.is_some()` (the unguarded
event falls through to the `UserInput(_)` no-op); the cursor is incremented
when it is below `search_idx.len().saturating_sub(1)` and the visible window
does not already reach the last line, then `search::next_match` runs. -/
def handle_next_match (p : PagerState) : PagerState :=
  if p.search_term.isSome then
    let p1 :=
      if p.search_mark < p.search_idx.length - 1 ∧ p.upper_mark + p.rows < num_lines p
      then { p with search_mark := p.search_mark + 1 }
      else p
    next_match p1
  else p

/-- Embedding of the `InputEvent::PrevMatch` arm of `handle_event`
(src/core/ev_handler.rs): guarded by `search_term.is_some()`; with no matches
it returns immediately; otherwise the cursor is decremented with saturation
at 0 and the match line at the new cursor is looked up with
`search_idx.iter().nth(..).unwrap()` — `none` models that `unwrap` panicking.
Only when the looked-up line is strictly below `upper_mark` does `upper_mark`
move to it (`format_prompt` only refreshes the displayed prompt text and
touches none of the modelled fields). -/
def handle_prev_match (p : PagerState) : Option PagerState :=
  if p.search_term.isSome then
    if p.search_idx.isEmpty then some p
    else
      (p.search_idx.get? (p.search_mark - 1)).map fun y =>
        if y < p.upper_mark
        then { p with search_mark := p.search_mark - 1, upper_mark := y }
        else { p with search_mark := p.search_mark - 1 }
  else some p

/-- Embedding of the `InputEvent::Search(m)` arm of `handle_event`
(src/core/ev_handler.rs).  The blocking prompt sub-interaction
(`search::fetch_input`) and the external pattern compiler are outside the
core, so the fetched `query` and the compile outcome `compiled` (`none` for a
compile error) are parameters.  An empty query does nothing further; on
success the matcher is stored, lines are reformatted and the view jumps via
`next_match`; on failure only the invalid-expression `message` is set and
lines are reformatted. -/
def handle_search (p : PagerState) (m : SearchMode) (query : List Char)
    (compiled : Option (List Char → Bool)) : Option PagerState :=
  let p0 := { p with search_mode := m }
  if query.isEmpty then some p0
  else
    match compiled with
    | some r => (format_lines { p0 with search_term := some r }).map next_match
    | none =>
      format_lines { p0 with message := some "Invalid regular expression. Press Enter" }

/-- A consistent idle state: `formatted_lines` is the wrap of `lines` at
`cols` and no search is active. -/
def psIdle : PagerState where
  lines := ['a', 'b']
  formatted_lines := [['a'], ['b'], []]
  upper_mark := 0
  rows := 5
  cols := 1
  line_numbers := LineNumbers.Disabled
  prompt := "minus"
  message := none
  search_term := none
  search_mode := SearchMode.Unknown
  search_idx := []
  search_mark := 0

/-- An active-search state whose cursor can advance: two matches, the window
not yet at the end of the document. -/
def psNextEx : PagerState where
  lines := ['a', '\n', 'a', '\n', 'a']
  formatted_lines := [['a'], ['a'], ['a']]
  upper_mark := 0
  rows := 1
  cols := 5
  line_numbers := LineNumbers.Disabled
  prompt := "minus"
  message := none
  search_term := some fun _ => true
  search_mode := SearchMode.Forward
  search_idx := [0, 2]
  search_mark := 0

/-- A state with no search pattern set. -/
def psNoPattern : PagerState :=
  { psNextEx with search_term := none }

/-- An active-search state for the previous-match step: two matches, cursor
on the second, the first match above the visible window. -/
def psPrevEx : PagerState where
  lines := []
  formatted_lines := [['a'], ['b'], ['a'], ['b'], ['a'], ['b'], ['a'], ['b']]
  upper_mark := 6
  rows := 2
  cols := 8
  line_numbers := LineNumbers.Disabled
  prompt := "minus"
  message := none
  search_term := some fun l => l = ['a']
  search_mode := SearchMode.Forward
  search_idx := [3, 7]
  search_mark := 1

/-- An active-search state with no matches at all. -/
def psNoMatches : PagerState :=
  { psPrevEx with search_idx := [], search_mark := 0 }

/-- A stale state: the match index has shrunk to a single entry while the
cursor kept the old value `3` from a richer index. -/
def psStale : PagerState :=
  { psPrevEx with search_idx := [0], search_mark := 3 }

/-- A shrunk-but-recoverable state: the cursor sits one past the end of the
single-entry match index. -/
def psShrunk : PagerState :=
  { psPrevEx with search_idx := [0], search_mark := 1 }

end Minus

namespace Minus

theorem splitAtByte_append : ∀ (l : List Char) (n : Nat) (a b : List Char),
    splitAtByte l n = some (a, b) → a ++ b = l := by
  intro l
  induction l with
  | nil =>
    intro n a b h
    match n with
    | 0 =>
      simp [splitAtByte] at h
      simp [h.1, h.2]
    | _ + 1 => simp [splitAtByte] at h
  | cons c cs ih =>
    intro n a b h
    match n with
    | 0 =>
      simp [splitAtByte] at h
      simp [h.1, h.2]
    | n + 1 =>
      simp only [splitAtByte] at h
      split at h
      · cases hsb : splitAtByte cs (n + 1 - c.utf8Size) with
        | none => rw [hsb] at h; simp at h
        | some q =>
          rw [hsb] at h
          simp only [Option.map_some', Option.some.injEq, Prod.mk.injEq] at h
          obtain ⟨ha, hb⟩ := h
          subst ha; subst hb
          simpa using ih _ _ _ hsb
      · simp at h

theorem splitLineGo_length (cols : Nat) : ∀ (k : Nat) (line : List Char)
    (out : List (List Char)), splitLineGo cols k line = some out → out.length = k + 1 := by
  intro k
  induction k with
  | zero =>
    intro line out h
    simp [splitLineGo] at h
    subst h
    simp
  | succ k ih =>
    intro line out h
    simp only [splitLineGo] at h
    cases hsb : splitAtByte line cols with
    | none => rw [hsb] at h; simp at h
    | some q =>
      rw [hsb] at h
      simp only [Option.some_bind] at h
      cases hgo : splitLineGo cols k q.2 with
      | none => rw [hgo] at h; simp at h
      | some ls =>
        rw [hgo] at h
        simp only [Option.map_some', Option.some.injEq] at h
        subst h
        simp [ih q.2 ls hgo]

theorem splitLineGo_flatten (cols : Nat) : ∀ (k : Nat) (line : List Char)
    (out : List (List Char)), splitLineGo cols k line = some out → out.flatten = line := by
  intro k
  induction k with
  | zero =>
    intro line out h
    simp [splitLineGo] at h
    subst h
    simp
  | succ k ih =>
    intro line out h
    simp only [splitLineGo] at h
    cases hsb : splitAtByte line cols with
    | none => rw [hsb] at h; simp at h
    | some q =>
      rw [hsb] at h
      simp only [Option.some_bind] at h
      cases hgo : splitLineGo cols k q.2 with
      | none => rw [hgo] at h; simp at h
      | some ls =>
        rw [hgo] at h
        simp only [Option.map_some', Option.some.injEq] at h
        subst h
        have hj := ih q.2 ls hgo
        have hab := splitAtByte_append line cols q.1 q.2 hsb
        simp [hj, hab]

theorem split_line_at_width_length (line : List Char) (cols : Nat)
    (out : List (List Char)) (h : split_line_at_width line cols = some out) :
    out.length = byteLen line / cols + 1 := by
  unfold split_line_at_width at h
  split at h
  · simp at h
  · exact splitLineGo_length cols _ line out h

theorem splitAll_length (cols : Nat) : ∀ (L : List (List Char))
    (out : List (List Char)), splitAll cols L = some out →
    out.length = (L.map fun l => byteLen l / cols + 1).sum := by
  intro L
  induction L with
  | nil =>
    intro out h
    simp [splitAll] at h
    subst h
    simp
  | cons l ls ih =>
    intro out h
    simp only [splitAll] at h
    cases hl : split_line_at_width l cols with
    | none => rw [hl] at h; simp at h
    | some a =>
      rw [hl] at h
      simp only [Option.some_bind] at h
      cases hr : splitAll cols ls with
      | none => rw [hr] at h; simp at h
      | some b =>
        rw [hr] at h
        simp only [Option.map_some', Option.some.injEq] at h
        subst h
        simp [split_line_at_width_length l cols a hl, ih b hr]

/-- C1 (counterexample): the claimed count `ceil(max(1, len(line)) / cols)`
fails on the single logical line `"aa"` at `cols = 2`: the formatter emits
2 display lines (`["aa", ""]`, the empty remainder is still emitted on an
exact multiple) while the claimed formula gives 1. -/
theorem split_at_width_ceil_count_false :
    (split_at_width ['a', 'a'] 2).map List.length = some 2
    ∧ (max 1 (byteLen ['a', 'a']) + 2 - 1) / 2 = 1
    ∧ (2 : Nat) ≠ 1 := by decide

/-- C1 (amended): whenever the formatter returns (does not panic), it
produces exactly `sum(len(line) / cols + 1)` display lines over the logical
lines of the text — i.e. `floor`, not `ceil`, plus one, so a single logical
line of length `L` yields `L / cols + 1` display lines (minimum 1, even for
an empty line). -/
theorem split_at_width_display_line_count :
    (∀ (text : List Char) (cols : Nat) (out : List (List Char)),
        split_at_width text cols = some out →
        out.length = ((rustLines text).map fun l => byteLen l / cols + 1).sum)
    ∧ (∀ (line : List Char) (cols : Nat) (out : List (List Char)),
        split_line_at_width line cols = some out →
        out.length = byteLen line / cols + 1) :=
  ⟨fun text cols out h => splitAll_length cols (rustLines text) out h,
   fun line cols out h => split_line_at_width_length line cols out h⟩

/-- Witness for the amended C1 at the text `"aa\nb"` with `cols = 2`:
5 display lines would be wrong, the formatter emits 3 = (2/2+1) + (1/2+1). -/
theorem split_at_width_display_line_count_witness :
    split_at_width ['a', 'a', '\n', 'b'] 2 = some [['a', 'a'], [], ['b']]
    ∧ ([['a', 'a'], [], ['b']] : List (List Char)).length =
        ((rustLines ['a', 'a', '\n', 'b']).map fun l => byteLen l / 2 + 1).sum :=
  ⟨by decide, split_at_width_display_line_count.1 ['a', 'a', '\n', 'b'] 2 _ (by decide)⟩

/-- C4: the slicing is not total — on the logical line `"é"` (one scalar, two
UTF-8 bytes) at `cols = 1`, `split_line_at_width` computes `breaks = 2/1 + 1`
and calls `str::split_at(1)` inside the two-byte character, which panics
(`none` in this embedding). -/
theorem split_line_at_width_multibyte_panic :
    split_line_at_width ['é'] 1 = none := by decide

/-- C5: concatenating, in order, the display lines the formatter produces
from one logical line reconstructs that logical line exactly. -/
theorem split_line_at_width_concat (line : List Char) (cols : Nat)
    (out : List (List Char)) (h : split_line_at_width line cols = some out) :
    out.flatten = line := by
  unfold split_line_at_width at h
  split at h
  · simp at h
  · exact splitLineGo_flatten cols _ line out h

/-- Witness for C5 at the line `"abc"` with `cols = 2`. -/
theorem split_line_at_width_concat_witness :
    split_line_at_width ['a', 'b', 'c'] 2 = some [['a', 'b'], ['c']]
    ∧ ([['a', 'b'], ['c']] : List (List Char)).flatten = ['a', 'b', 'c'] :=
  ⟨by decide, split_line_at_width_concat ['a', 'b', 'c'] 2 _ (by decide)⟩

/-- C2: the in/out `upper_mark` is clamped before drawing — forced to 0 when
`num_lines <= rows`, otherwise clamped into `[0, num_lines - rows]` — and the
value left in it after the call satisfies this bound. -/
theorem write_lines_clamp (lines : List (List Char)) (rows upper_mark : Nat)
    (ln : LineNumbers) :
    (lines.length ≤ rows → (write_lines lines rows upper_mark ln).1 = 0)
    ∧ (rows < lines.length →
        (write_lines lines rows upper_mark ln).1 ≤ lines.length - rows)
    ∧ (write_lines lines rows upper_mark ln).1 =
        (if lines.length ≤ rows then 0 else min upper_mark (lines.length - rows)) := by
  refine ⟨fun h => ?_, fun h => ?_, ?_⟩
  · simp [write_lines, h]
  · simp only [write_lines]
    rw [if_neg (Nat.not_le.mpr h)]
    exact Nat.min_le_right _ _
  · simp [write_lines]

/-- Witness for C2: a two-line document at `rows = 10` is forced to 0, and a
four-line document at `rows = 3` with a requested mark of 2 stays within
`num_lines - rows`. -/
theorem write_lines_clamp_witness :
    (write_lines ["A line".toList, "Another line".toList] 10 1 LineNumbers.Disabled).1 = 0
    ∧ (write_lines testLines4 3 2 LineNumbers.Disabled).1 ≤ testLines4.length - 3 :=
  ⟨(write_lines_clamp _ 10 1 _).1 (by decide),
   (write_lines_clamp testLines4 3 2 _).2.1 (by decide)⟩

/-- C3: the engine emits exactly `min(rows, num_lines - upper_mark)` lines
starting at the clamped `upper_mark` — and at the scenario cited by the
claim (110 lines `"L0".."L109"`, `rows = 10`, `upper_mark = 95`, numbers on)
this is 10 emitted lines, `"\r 96. L95\n"` through `"\r105. L104\n"`,
whereas the in-repo test `big_line_numbers_are_padded` expects only 9,
stopping at `"\r104. L103\n"`. -/
theorem write_lines_draw_count :
    (∀ (lines : List (List Char)) (rows upper_mark : Nat) (ln : LineNumbers),
        (write_lines lines rows upper_mark ln).2.length =
          min rows (lines.length - (write_lines lines rows upper_mark ln).1))
    ∧ (write_lines bigTestLines 10 95 LineNumbers.AlwaysOn).1 = 95
    ∧ (write_lines bigTestLines 10 95 LineNumbers.AlwaysOn).2.length = 10
    ∧ (write_lines bigTestLines 10 95 LineNumbers.AlwaysOn).2.head? =
        some "\r 96. L95\n".toList
    ∧ (write_lines bigTestLines 10 95 LineNumbers.AlwaysOn).2.getLast? =
        some "\r105. L104\n".toList := by
  refine ⟨fun lines rows upper_mark ln => ?_, by decide, by decide, by decide, by decide⟩
  simp only [write_lines, List.length_map, List.enum_length, List.length_take,
    List.length_drop]
  omega

/-- C6: a begin-search event whose non-empty query fails to compile sets the
invalid-expression notice as the message and leaves `search_term` unset and
`formatted_lines` at its prior value (given the standing invariant that
`formatted_lines` is the wrap of the current text at the current width). -/
theorem search_compile_failure (p : PagerState) (m : SearchMode) (query : List Char)
    (h0 : p.search_term = none) (hq : query.isEmpty = false)
    (hinv : split_at_width p.lines p.cols = some p.formatted_lines) :
    ∃ p', handle_search p m query none = some p'
      ∧ p'.message = some "Invalid regular expression. Press Enter"
      ∧ p'.search_term = none
      ∧ p'.formatted_lines = p.formatted_lines := by
  refine ⟨{ p with search_mode := m, message := some "Invalid regular expression. Press Enter", search_idx := [] }, ?_, rfl, h0, rfl⟩
  simp [handle_search, hq, format_lines, hinv, matchIndices, h0]

/-- Witness for C6 at a consistent idle state and the query `"x"`. -/
theorem search_compile_failure_witness :
    ∃ p', handle_search psIdle SearchMode.Forward ['x'] none = some p'
      ∧ p'.message = some "Invalid regular expression. Press Enter"
      ∧ p'.search_term = none
      ∧ p'.formatted_lines = psIdle.formatted_lines :=
  search_compile_failure psIdle SearchMode.Forward ['x'] rfl rfl (by decide)

theorem next_match_search_mark (q : PagerState) :
    (next_match q).search_mark = q.search_mark := by
  unfold next_match
  cases hg : q.search_idx.get? q.search_mark <;> rfl

/-- C7: with a pattern set, the next-match handler increments the cursor by
exactly one iff the cursor is below `len(search_idx) - 1` and the visible
window does not already reach the last line, otherwise leaves it unchanged —
so it never pushes the cursor past `len(search_idx) - 1`; with no pattern
set, next-match and previous-match are no-ops. -/
theorem next_match_cursor (p : PagerState) :
    (p.search_term.isSome = true →
      (handle_next_match p).search_mark =
        (if p.search_mark < p.search_idx.length - 1 ∧ p.upper_mark + p.rows < num_lines p
         then p.search_mark + 1 else p.search_mark))
    ∧ (p.search_mark ≤ p.search_idx.length - 1 →
        (handle_next_match p).search_mark ≤ p.search_idx.length - 1)
    ∧ (p.search_term = none →
        handle_next_match p = p ∧ handle_prev_match p = some p) := by
  have hmain : p.search_term.isSome = true →
      (handle_next_match p).search_mark =
        (if p.search_mark < p.search_idx.length - 1 ∧ p.upper_mark + p.rows < num_lines p
         then p.search_mark + 1 else p.search_mark) := by
    intro hs
    by_cases hc : p.search_mark < p.search_idx.length - 1 ∧ p.upper_mark + p.rows < num_lines p
    · simp [handle_next_match, hs, hc, next_match_search_mark]
    · simp [handle_next_match, hs, hc, next_match_search_mark]
  refine ⟨hmain, fun hb => ?_, fun h0 => ⟨by simp [handle_next_match, h0], by simp [handle_prev_match, h0]⟩⟩
  by_cases hs : p.search_term.isSome = true
  · rw [hmain hs]
    split <;> omega
  · rw [Bool.not_eq_true] at hs
    simpa [handle_next_match, hs] using hb

/-- Witness for C7: at `psNextEx` both guard conditions hold and the cursor
advances by one; at `psNoPattern` the event is a no-op. -/
theorem next_match_cursor_witness :
    (handle_next_match psNextEx).search_mark =
      (if psNextEx.search_mark < psNextEx.search_idx.length - 1
          ∧ psNextEx.upper_mark + psNextEx.rows < num_lines psNextEx
       then psNextEx.search_mark + 1 else psNextEx.search_mark)
    ∧ handle_next_match psNoPattern = psNoPattern :=
  ⟨(next_match_cursor psNextEx).1 rfl, ((next_match_cursor psNoPattern).2.2 rfl).1⟩

theorem handle_prev_match_of_lt (p : PagerState) (hs : p.search_term.isSome = true)
    (h : p.search_mark - 1 < p.search_idx.length) :
    handle_prev_match p =
      some (if p.search_idx.get ⟨p.search_mark - 1, h⟩ < p.upper_mark
            then { p with search_mark := p.search_mark - 1, upper_mark := p.search_idx.get ⟨p.search_mark - 1, h⟩ }
            else { p with search_mark := p.search_mark - 1 }) := by
  have hne : p.search_idx.isEmpty = false := by
    cases hidx : p.search_idx with
    | nil => rw [hidx] at h; simp at h
    | cons a t => rfl
  simp only [handle_prev_match, hs, if_true, hne, Bool.false_eq_true, if_false]
  rw [List.get?_eq_get h]
  rfl

/-- C8: with a pattern set, previous-match is a no-op when there are no
matches; otherwise the cursor is decremented with saturation at 0 and
`upper_mark` moves to the match line at the new cursor iff that line is
strictly below the current `upper_mark`, else stays. -/
theorem prev_match_step (p : PagerState) (hs : p.search_term.isSome = true) :
    (p.search_idx = [] → handle_prev_match p = some p)
    ∧ (∀ h : p.search_mark - 1 < p.search_idx.length,
        handle_prev_match p =
          some (if p.search_idx.get ⟨p.search_mark - 1, h⟩ < p.upper_mark
                then { p with search_mark := p.search_mark - 1, upper_mark := p.search_idx.get ⟨p.search_mark - 1, h⟩ }
                else { p with search_mark := p.search_mark - 1 })) := by
  refine ⟨fun he => ?_, fun h => handle_prev_match_of_lt p hs h⟩
  simp [handle_prev_match, hs, he]

/-- Witness for C8: at `psPrevEx` the cursor drops from 1 to 0 and the view
scrolls up to match line 3 (< upper mark 6); at `psNoMatches` nothing
happens. -/
theorem prev_match_step_witness :
    handle_prev_match psPrevEx =
      some (if psPrevEx.search_idx.get ⟨psPrevEx.search_mark - 1, by decide⟩
              < psPrevEx.upper_mark
            then { psPrevEx with search_mark := psPrevEx.search_mark - 1, upper_mark := psPrevEx.search_idx.get ⟨psPrevEx.search_mark - 1, by decide⟩ }
            else { psPrevEx with search_mark := psPrevEx.search_mark - 1 })
    ∧ handle_prev_match psNoMatches = some psNoMatches :=
  ⟨(prev_match_step psPrevEx rfl).2 (by decide),
   (prev_match_step psNoMatches rfl).1 rfl⟩

/-- C9 (counterexample): in the stale state `psStale` — one remaining match
but a cursor of 3 kept from a larger index — the previous-match handler's
`search_idx.iter().nth(search_mark).unwrap()` finds nothing and panics
(`none` in this embedding), so the lookup does not always succeed. -/
theorem prev_match_unwrap_panics : handle_prev_match psStale = none := rfl

/-- C9 (amended): the previous-match lookup succeeds — and the handler does
not panic — whenever the cursor is at most `len(search_idx)` at dispatch; a
panic needs the index to have shrunk by at least two below the cursor. -/
theorem prev_match_no_panic_of_bound (p : PagerState)
    (hs : p.search_term.isSome = true) (hne : p.search_idx ≠ [])
    (hb : p.search_mark ≤ p.search_idx.length) :
    (handle_prev_match p).isSome = true := by
  have hlen : 0 < p.search_idx.length := List.length_pos.mpr hne
  have h : p.search_mark - 1 < p.search_idx.length := by omega
  rw [handle_prev_match_of_lt p hs h]
  rfl

/-- Witness for the amended C9: at `psShrunk` the index shrank to one entry
with the cursor one past it, and the handler still succeeds. -/
theorem prev_match_no_panic_of_bound_witness :
    (handle_prev_match psShrunk).isSome = true :=
  prev_match_no_panic_of_bound psShrunk rfl (by decide) (by decide)

/-- C10: while the pager is not running, `set_text` and `push_str` only store
the text in the `unwraped_text` buffer and leave `lines` untouched; the
buffer is wrapped into `lines` (at the terminal width seen at that moment)
only by `prepare`, which flips `running` from `false` to `true`. -/
theorem pre_start_buffering (p : Pager) (t : List Char) (h : p.running = false) :
    set_text p t = some { p with unwraped_text := t }
    ∧ push_str p t = some { p with unwraped_text := p.unwraped_text ++ t }
    ∧ ∀ (c r : Nat) (ls : List (List Char)),
        split_at_width p.unwraped_text c = some ls →
        prepare p c r = some { p with cols := c, rows := r, running := true, lines := ls } := by
  refine ⟨by simp [set_text, h], by simp [push_str, h], fun c r ls hw => ?_⟩
  simp [prepare, h, hw]

/-- Witness for C10 on a fresh pager. -/
theorem pre_start_buffering_witness :
    set_text Pager.new ['h', 'i'] = some { Pager.new with unwraped_text := ['h', 'i'] }
    ∧ push_str Pager.new ['h', 'i'] =
        some { Pager.new with unwraped_text := Pager.new.unwraped_text ++ ['h', 'i'] }
    ∧ prepare Pager.new 80 24 =
        some { Pager.new with cols := 80, rows := 24, running := true, lines := [] } :=
  ⟨(pre_start_buffering Pager.new ['h', 'i'] rfl).1,
   (pre_start_buffering Pager.new ['h', 'i'] rfl).2.1,
   (pre_start_buffering Pager.new ['h', 'i'] rfl).2.2 80 24 [] (by decide)⟩

end Minus
